import Mathlib

/-!
Verification of the glue logic in
`src/main/python/org/broadinstitute/hellbender/svgenotyper/svgenotyper/genotype.py`.

The Python module is a driver that loads a trained structural-variant
genotyping model, runs posterior inference via an external
probabilistic-programming runtime, and projects the per-site posterior
statistics into one output record per variant.  We embed the script's own
logic (dictionary lookups and membership tests, list indexing, the
`get_output` projection loop, `load_model`, `load_param_store` and the
control flow of `run`) shallowly: Python dictionaries become association
lists, numpy scalars become rationals, fallible operations (key lookup,
indexing, numeric multiplication of possibly non-numeric values) return
`Except PyErr`.  External collaborators that are not part of this file
(the pyro runtime, the `io` module, the model class) are modelled as
opaque deterministic functions supplied by an environment record; each
such model carries a doc comment saying what it stands for.
-/

namespace SVGenotyper

/-- A Python runtime error as raised by the script: `KeyError` from a
dictionary lookup, `IndexError` from sequence indexing, `TypeError` from
an ill-typed arithmetic operation, and `RuntimeError` raised explicitly
by `run`. -/
inductive PyErr where
  | keyError (key : String)
  | indexError
  | typeError
  | runtimeError (msg : String)
  deriving Repr, DecidableEq

/-- A Python value as it appears in the statistics / hyperparameter
mappings: a numeric scalar (modelled as a rational), a numeric vector
(a row of a 2-d array, e.g. `stats['z']['mean'][i, :]`), or a string
(e.g. `params['loss']`). -/
inductive PyVal where
  | num (q : ℚ)
  | vec (v : List ℚ)
  | str (s : String)
  deriving Repr, DecidableEq

/-- `True` on numeric scalars, `false` otherwise. -/
def PyVal.isNum : PyVal → Bool
  | .num _ => true
  | _ => false

/-- A Python dict is embedded as an association list; lookup takes the
first entry with the given key. -/
abbrev Dict (α : Type) := List (String × α)

/-- `d[key]` as a partial lookup (`None` plays the role of `KeyError`). -/
def dictGet {α : Type} (d : Dict α) (key : String) : Option α :=
  (d.find? (fun p => p.1 == key)).map Prod.snd

/-- Python's `key in d`. -/
def dictContains {α : Type} (d : Dict α) (key : String) : Bool :=
  d.any (fun p => p.1 == key)

/-- `d[key]` raising `KeyError` when the key is absent. -/
def dictGetE {α : Type} (d : Dict α) (key : String) : Except PyErr α :=
  match dictGet d key with
  | some v => .ok v
  | none => .error (.keyError key)

/-- `xs[i]` raising `IndexError` when `i` is out of range. -/
def listGet {α : Type} (xs : List α) (i : Nat) : Except PyErr α :=
  match xs[i]? with
  | some v => .ok v
  | none => .error .indexError

/-- Numeric multiplication; `TypeError` unless both operands are numeric
scalars. -/
def pyMul : PyVal → PyVal → Except PyErr PyVal
  | .num a, .num b => .ok (.num (a * b))
  | _, _ => .error .typeError

/-- One entry of the posterior statistics mapping: per the data model,
each per-site value is itself a mapping with at least a `mean` entry, an
array indexed first by variant (rows of a 2-d array appear as `PyVal.vec`
elements). -/
structure SiteStat where
  mean : List PyVal
  deriving Repr, DecidableEq

/-- The merged posterior statistics mapping, keyed by site name. -/
abbrev StatsDict := Dict SiteStat

/-- The hyperparameter mapping loaded from `<base_path>.vars.json`. -/
abbrev ParamsDict := Dict PyVal

/-- `stats[site]['mean'][i]`. -/
def statsMeanAt (stats : StatsDict) (site : String) (i : Nat) :
    Except PyErr PyVal := do
  let s ← dictGetE stats site
  listGet s.mean i

/-- `stats[site]['mean'][i] * params[muKey]`, the prior-rescaled noise
rate, evaluating the left operand before the right one as Python does. -/
def scaledMeanAt (stats : StatsDict) (params : ParamsDict)
    (site muKey : String) (i : Nat) : Except PyErr PyVal := do
  let m ← statsMeanAt stats site i
  let mu ← dictGetE params muKey
  pyMul m mu

/-- One per-variant output record, with the fields built by `get_output`. -/
structure OutputRecord where
  vid : String
  freq_z : PyVal
  p_m_pe : PyVal
  p_m_sr1 : PyVal
  p_m_sr2 : PyVal
  eps_pe : PyVal
  eps_sr1 : PyVal
  eps_sr2 : PyVal
  phi_pe : PyVal
  phi_sr1 : PyVal
  phi_sr2 : PyVal
  deriving Repr, DecidableEq

/-- The `if 'eps_pe' in stats ... else eps_pe = 0` assignment of the
source loop body. -/
def eps_pe_val (stats : StatsDict) (params : ParamsDict) (i : Nat) :
    Except PyErr PyVal :=
  if dictContains stats "eps_pe" then
    scaledMeanAt stats params "eps_pe" "mu_eps_pe" i
  else pure (PyVal.num 0)

/-- The `if 'phi_pe' in stats ... else phi_pe = 0` assignment of the
source loop body. -/
def phi_pe_val (stats : StatsDict) (i : Nat) : Except PyErr PyVal :=
  if dictContains stats "phi_pe" then
    statsMeanAt stats "phi_pe" i
  else pure (PyVal.num 0)

/-- The `if 'm_pe' in stats ... else p_m_pe = 0` assignment of the
source loop body. -/
def p_m_pe_val (stats : StatsDict) (i : Nat) : Except PyErr PyVal :=
  if dictContains stats "m_pe" then
    statsMeanAt stats "m_pe" i
  else pure (PyVal.num 0)

/-- The body of `get_output`'s loop for index `i`, in the evaluation
order of the source: the optional sites `eps_pe`, `phi_pe`, `m_pe` are
tested with `in` and default to `0` when absent; then the record literal
evaluates `stats['z']['mean'][i, :]`, the two split-read membership
probabilities, the two rescaled split-read noise rates and the two
split-read `phi` values, all of which raise `KeyError` when absent. -/
def get_output_record (vids_list : List String) (stats : StatsDict)
    (params : ParamsDict) (i : Nat) : Except PyErr OutputRecord := do
  let vid ← listGet vids_list i
  let eps_pe ← eps_pe_val stats params i
  let phi_pe ← phi_pe_val stats i
  let p_m_pe ← p_m_pe_val stats i
  let freq_z ← statsMeanAt stats "z" i
  let p_m_sr1 ← statsMeanAt stats "m_sr1" i
  let p_m_sr2 ← statsMeanAt stats "m_sr2" i
  let eps_sr1 ← scaledMeanAt stats params "eps_sr1" "mu_eps_sr1" i
  let eps_sr2 ← scaledMeanAt stats params "eps_sr2" "mu_eps_sr2" i
  let phi_sr1 ← statsMeanAt stats "phi_sr1" i
  let phi_sr2 ← statsMeanAt stats "phi_sr2" i
  pure { vid := vid, freq_z := freq_z, p_m_pe := p_m_pe,
         p_m_sr1 := p_m_sr1, p_m_sr2 := p_m_sr2, eps_pe := eps_pe,
         eps_sr1 := eps_sr1, eps_sr2 := eps_sr2, phi_pe := phi_pe,
         phi_sr1 := phi_sr1, phi_sr2 := phi_sr2 }

/-- The loop `for i in range(n_variants)` of `get_output`, run from
index `i` for `fuel` more iterations; the first raised exception aborts
the whole call, as in Python. -/
def get_output_go (vids_list : List String) (stats : StatsDict)
    (params : ParamsDict) (i : Nat) : Nat → Except PyErr (List OutputRecord)
  | 0 => .ok []
  | fuel + 1 => do
    let r ← get_output_record vids_list stats params i
    let rest ← get_output_go vids_list stats params (i + 1) fuel
    pure (r :: rest)

/-- `get_output(vids_list, stats, params)`: one output record per entry
of `vids_list`, in order. -/
def get_output (vids_list : List String) (stats : StatsDict)
    (params : ParamsDict) : Except PyErr (List OutputRecord) :=
  get_output_go vids_list stats params 0 vids_list.length

/-- A log entry emitted through the `logging` module; only the level and
message matter here. -/
inductive LogEntry where
  | warning (msg : String)
  | info (msg : String)
  deriving Repr, DecidableEq

/-- The observable side effects of one invocation of `run`, in order. -/
inductive Event where
  | clearParamStore
  | seedNumpy (s : Int)
  | seedTorch (s : Int)
  | seedPyro (s : Int)
  | logged (e : LogEntry)
  | loadedParamStore (path : String) (device : String)
  | ranPredictive
  | ranDiscrete
  | wroteOutput (path : String)
  deriving Repr, DecidableEq

/-- The filesystem as the script sees it: which paths exist, and the
parsed JSON content of those that do (`load_model` only ever parses a
hyperparameter mapping). -/
structure FS where
  exists_file : String → Bool
  json : String → ParamsDict

/-- `os.path.join(a, b)` for two components, as Python computes it: an
absolute second component replaces the first; otherwise a single `/`
separates them unless the first already ends in one or is empty. -/
def os_path_join (a b : String) : String :=
  if b.startsWith "/" then b
  else if a = "" then b
  else if a.endsWith "/" then a ++ b
  else a ++ "/" ++ b

/-- `load_model(base_path)`: reads `<base_path>.vars.json` when it
exists and returns the parsed mapping; otherwise returns `None` after
logging a warning.  The second component is the list of log entries the
call emits. -/
def load_model (fs : FS) (base_path : String) :
    Option ParamsDict × List LogEntry :=
  let model_path := base_path ++ ".vars.json"
  if fs.exists_file model_path then
    (some (fs.json model_path), [])
  else
    (none, [LogEntry.warning ("Could not locate model file " ++ model_path)])

/-- Modelled from the spec: the `SVTypes` enumeration from the sibling
`constants` module (not included in the excerpt); the spec describes it
only as "an SV-type enumeration" of structural-variant classes keyed by
string. -/
inductive SVType where
  | DEL | DUP | INS | INV | BND
  deriving Repr, DecidableEq

/-- Modelled from the spec: `SVTypes[args['svtype']]`, resolving "the SV
type tag from a string"; an unknown tag raises a `KeyError` as Python
enum subscripting does. -/
def svtypeOf : String → Except PyErr SVType
  | "DEL" => .ok .DEL
  | "DUP" => .ok .DUP
  | "INS" => .ok .INS
  | "INV" => .ok .INV
  | "BND" => .ok .BND
  | s => .error (.keyError s)

/-- The process-wide mutable state `run` manipulates: the pyro parameter
registry (modelled as an association list of named numeric parameters)
and the states of the three random number generators seeded by `run`
(array library, tensor library, probabilistic-programming library).  RNG
states are abstract integers. -/
structure GlobalState where
  pstore : List (String × ℚ)
  rng_np : Int
  rng_torch : Int
  rng_pyro : Int
  deriving Repr, DecidableEq

/-- Modelled from the spec: `pyro.get_param_store().load(path, ...)`
merges the serialized parameters into the current registry (the loader
clears the registry first precisely so that afterwards it holds exactly
the file's contents). -/
def storeLoad (cur file : List (String × ℚ)) : List (String × ℚ) :=
  file ++ cur

/-- `load_param_store(base_path, device)`: clears the process-wide
registry, then loads `<base_path>.param_store.pyro` into it, mapping
tensors onto the requested device.  Returns the new global state and
the emitted events.  `store_file` gives the deserialized contents of
the parameter-store file. -/
def load_param_store (store_file : String → List (String × ℚ))
    (base_path : String) (device : String) (g : GlobalState) :
    GlobalState × List Event :=
  let g1 := { g with pstore := [] }
  let path := base_path ++ ".param_store.pyro"
  let g2 := { g1 with pstore := storeLoad g1.pstore (store_file path) }
  (g2, [Event.clearParamStore, Event.loadedParamStore path device])

/-- The configuration with which `run` constructs the model object: the
hyperparameters it extracts from `params` plus the device string.  The
model class itself is external; this records exactly the arguments the
call site in `run` computes. -/
structure ModelCfg where
  svtype : SVType
  k : PyVal
  mu_eps_pe : PyVal
  mu_eps_sr1 : PyVal
  mu_eps_sr2 : PyVal
  var_phi_pe : PyVal
  var_phi_sr1 : PyVal
  var_phi_sr2 : PyVal
  read_length : PyVal
  device : String
  loss : PyVal

/-- The keyword-argument lookups `params['k']`, `params['mu_eps_pe']`,
..., `params['loss']` performed at the `SVGenotyperPyroModel(...)` call
site in `run`, in source order; any missing key raises `KeyError`. -/
def build_model_cfg (svtype : SVType) (params : ParamsDict)
    (device : String) : Except PyErr ModelCfg := do
  let k ← dictGetE params "k"
  let mu_eps_pe ← dictGetE params "mu_eps_pe"
  let mu_eps_sr1 ← dictGetE params "mu_eps_sr1"
  let mu_eps_sr2 ← dictGetE params "mu_eps_sr2"
  let var_phi_pe ← dictGetE params "var_phi_pe"
  let var_phi_sr1 ← dictGetE params "var_phi_sr1"
  let var_phi_sr2 ← dictGetE params "var_phi_sr2"
  let read_length ← dictGetE params "read_length"
  let loss ← dictGetE params "loss"
  pure { svtype := svtype, k := k, mu_eps_pe := mu_eps_pe,
         mu_eps_sr1 := mu_eps_sr1, mu_eps_sr2 := mu_eps_sr2,
         var_phi_pe := var_phi_pe, var_phi_sr1 := var_phi_sr1,
         var_phi_sr2 := var_phi_sr2, read_length := read_length,
         device := device, loss := loss }

/-- `posterior.update(discrete_posterior)`: entries of the argument take
precedence over existing entries, as with Python's `dict.update`
(lookup-equivalently, the updating entries are consulted first). -/
def dictUpdate {α : Type} (d e : Dict α) : Dict α :=
  e ++ d

/-- The external collaborators of `run`, modelled as deterministic
functions.  `tensors` stands for `io.load_tensors` (an opaque tensor
bundle handle); `list_file` for `io.load_list`; `store_file` for the
deserialized parameter-store file; `run_predictive` and `run_discrete`
for the model's inference entry points, which read and advance the
process-wide state (RNGs, parameter registry) and return a statistics
mapping.  All are modelled from the spec: the `io` module, the pyro
runtime and `SVGenotyperPyroModel` are not part of the excerpt. -/
structure Env where
  fs : FS
  list_file : String → List String
  store_file : String → List (String × ℚ)
  tensors : String → SVType → String → Nat
  run_predictive : ModelCfg → Nat → Nat → Nat → GlobalState →
    StatsDict × GlobalState
  run_discrete : ModelCfg → Nat → SVType → PyVal → Nat → Nat →
    GlobalState → StatsDict × GlobalState

/-- The arguments mapping consumed by `run` (configuration surface). -/
structure Args where
  random_seed : Int
  model_dir : String
  model_name : String
  device : String
  genotype_predictive_samples : Nat
  genotype_predictive_iter : Nat
  genotype_discrete_log_freq : Nat
  genotype_discrete_samples : Nat
  svtype : String
  output : String

/-- The result of one invocation of `run`: the final process-wide state,
the ordered trace of observable side effects, and either the output
record list or the exception that aborted the invocation. -/
structure RunResult where
  state : GlobalState
  trace : List Event
  result : Except PyErr (List OutputRecord)

/-- `run(args)`: clears the parameter registry, seeds the three RNGs
from `args['random_seed']`, resolves the SV type, loads the
hyperparameters (raising `RuntimeError` when the file is missing),
constructs the model configuration, loads the parameter store, loads the
variant ids and tensors, runs predictive then discrete inference, merges
the posteriors, projects them with `get_output` and writes the output
file.  Any exception aborts the invocation at that point, leaving the
remaining effects unperformed. -/
def run (env : Env) (args : Args) (g0 : GlobalState) : RunResult :=
  let g1 := { g0 with pstore := [] }
  let g2 := { g1 with rng_np := args.random_seed }
  let g3 := { g2 with rng_torch := args.random_seed }
  let g4 := { g3 with rng_pyro := args.random_seed }
  let tr0 := [Event.clearParamStore, Event.seedNumpy args.random_seed,
              Event.seedTorch args.random_seed, Event.seedPyro args.random_seed]
  match svtypeOf args.svtype with
  | .error e => ⟨g4, tr0, .error e⟩
  | .ok svtype =>
    let base_path := os_path_join args.model_dir args.model_name
    match load_model env.fs base_path with
    | (none, logs) =>
      ⟨g4, tr0 ++ logs.map Event.logged,
       .error (.runtimeError ("Model at not found: " ++ base_path))⟩
    | (some params, logs) =>
      match build_model_cfg svtype params args.device with
      | .error e => ⟨g4, tr0 ++ logs.map Event.logged, .error e⟩
      | .ok cfg =>
        let lps := load_param_store env.store_file base_path args.device g4
        let g5 := lps.1
        let tr1 := lps.2
        let vids_list := env.list_file (base_path ++ ".vids.list")
        let data := env.tensors base_path svtype args.device
        let pred := env.run_predictive cfg data
          args.genotype_predictive_samples args.genotype_predictive_iter g5
        let posterior := pred.1
        let g6 := pred.2
        let disc := env.run_discrete cfg data svtype cfg.k
          args.genotype_discrete_log_freq args.genotype_discrete_samples g6
        let discrete_posterior := disc.1
        let g7 := disc.2
        let stats := dictUpdate posterior discrete_posterior
        match get_output vids_list stats params with
        | .error e =>
          ⟨g7, tr0 ++ logs.map Event.logged ++ tr1 ++
             [Event.ranPredictive, Event.ranDiscrete], .error e⟩
        | .ok output =>
          ⟨g7, tr0 ++ logs.map Event.logged ++ tr1 ++
             [Event.ranPredictive, Event.ranDiscrete,
              Event.wroteOutput args.output], .ok output⟩

/-! ### Well-formedness predicates on the statistics and hyperparameter
mappings, matching the data-model invariant: every statistic array's
first axis length equals the number of variants, and the values that
enter a multiplication are numeric scalars. -/

/-- Every entry of the statistics mapping has a `mean` array whose first
axis length is `n`. -/
def lenOk (stats : StatsDict) (n : Nat) : Bool :=
  stats.all (fun p => p.2.mean.length == n)

/-- If site `s` is present, all entries of its `mean` array are numeric
scalars (vacuously true when absent). -/
def siteNumsOk (stats : StatsDict) (s : String) : Bool :=
  match dictGet stats s with
  | some e => e.mean.all (fun v => v.isNum)
  | none => true

/-- If key `k` is present in the hyperparameters, its value is a numeric
scalar (vacuously true when absent). -/
def paramNumOk (params : ParamsDict) (k : String) : Bool :=
  match dictGet params k with
  | some v => v.isNum
  | none => true

/-- The value-side well-formedness of the mappings: the shape invariant
(every `mean` array has one entry per variant) and numeric scalars
wherever a multiplication happens.  Under these alone, every step of
`get_output` either succeeds or raises a `KeyError`. -/
def valsWF (vids_list : List String) (stats : StatsDict)
    (params : ParamsDict) : Prop :=
  lenOk stats vids_list.length = true ∧
  siteNumsOk stats "eps_pe" = true ∧
  siteNumsOk stats "eps_sr1" = true ∧
  siteNumsOk stats "eps_sr2" = true ∧
  paramNumOk params "mu_eps_pe" = true ∧
  paramNumOk params "mu_eps_sr1" = true ∧
  paramNumOk params "mu_eps_sr2" = true

instance (vids_list : List String) (stats : StatsDict)
    (params : ParamsDict) : Decidable (valsWF vids_list stats params) := by
  unfold valsWF; infer_instance

/-- All hypotheses under which every iteration of `get_output` succeeds:
the value-side well-formedness, presence of the seven mandatory sites,
presence of the split-read prior means, and the paired-end prior mean
whenever the `eps_pe` site is present. -/
def outputWF (vids_list : List String) (stats : StatsDict)
    (params : ParamsDict) : Prop :=
  valsWF vids_list stats params ∧
  dictContains stats "z" = true ∧
  dictContains stats "m_sr1" = true ∧
  dictContains stats "m_sr2" = true ∧
  dictContains stats "eps_sr1" = true ∧
  dictContains stats "eps_sr2" = true ∧
  dictContains stats "phi_sr1" = true ∧
  dictContains stats "phi_sr2" = true ∧
  dictContains params "mu_eps_sr1" = true ∧
  dictContains params "mu_eps_sr2" = true ∧
  (dictContains stats "eps_pe" = false ∨ dictContains params "mu_eps_pe" = true)

instance (vids_list : List String) (stats : StatsDict)
    (params : ParamsDict) : Decidable (outputWF vids_list stats params) := by
  unfold outputWF; infer_instance

/-- The computation either succeeds or raises a `KeyError` (never an
`IndexError` or `TypeError`). -/
def isOkOrKey {α : Type} (x : Except PyErr α) : Prop :=
  (∃ a, x = .ok a) ∨ ∃ k, x = .error (.keyError k)

instance {ε α : Type} [DecidableEq ε] [DecidableEq α] :
    DecidableEq (Except ε α) := fun x y =>
  match x, y with
  | .ok a, .ok b =>
    if h : a = b then isTrue (by rw [h])
    else isFalse (fun hc => h (Except.ok.inj hc))
  | .error e, .error f =>
    if h : e = f then isTrue (by rw [h])
    else isFalse (fun hc => h (Except.error.inj hc))
  | .ok _, .error _ => isFalse (fun hc => Except.noConfusion hc)
  | .error _, .ok _ => isFalse (fun hc => Except.noConfusion hc)

/-! ### Concrete data for the end-to-end scenario of §8 item 6 and for
evaluating the theorems at closed inputs. -/

/-- The §8 item 6 hyperparameter mapping: `k = 2`, unit noise and
variance priors, read length 150, ELBO loss. -/
def paramsC6 : ParamsDict :=
  [("k", .num 2), ("mu_eps_pe", .num 1), ("mu_eps_sr1", .num 1),
   ("mu_eps_sr2", .num 1), ("var_phi_pe", .num 1), ("var_phi_sr1", .num 1),
   ("var_phi_sr2", .num 1), ("read_length", .num 150), ("loss", .str "elbo")]

/-- The §8 item 6 statistics mapping: no `eps_pe`, `phi_pe`, `m_pe`;
all seven mandatory sites with 2-row `mean` arrays. -/
def statsC6 : StatsDict :=
  [("z", ⟨[.vec [1/2, 1/2], .vec [1/4, 3/4]]⟩),
   ("m_sr1", ⟨[.num 7, .num 8]⟩),
   ("m_sr2", ⟨[.num 9, .num 10]⟩),
   ("eps_sr1", ⟨[.num 11, .num 12]⟩),
   ("eps_sr2", ⟨[.num 13, .num 14]⟩),
   ("phi_sr1", ⟨[.num 15, .num 16]⟩),
   ("phi_sr2", ⟨[.num 17, .num 18]⟩)]

/-- The expected first output record for the §8 item 6 scenario. -/
def recC6a : OutputRecord :=
  { vid := "sv1", freq_z := .vec [1/2, 1/2], p_m_pe := .num 0,
    p_m_sr1 := .num 7, p_m_sr2 := .num 9, eps_pe := .num 0,
    eps_sr1 := .num 11, eps_sr2 := .num 13, phi_pe := .num 0,
    phi_sr1 := .num 15, phi_sr2 := .num 17 }

/-- The expected second output record for the §8 item 6 scenario. -/
def recC6b : OutputRecord :=
  { vid := "sv2", freq_z := .vec [1/4, 3/4], p_m_pe := .num 0,
    p_m_sr1 := .num 8, p_m_sr2 := .num 10, eps_pe := .num 0,
    eps_sr1 := .num 12, eps_sr2 := .num 14, phi_pe := .num 0,
    phi_sr1 := .num 16, phi_sr2 := .num 18 }

/-- A statistics mapping with the mandatory `z` site missing (and the
optional paired-end sites also absent), used to evaluate the
missing-mandatory-site behavior at a closed input. -/
def statsNoZ : StatsDict :=
  [("m_sr1", ⟨[.num 1]⟩), ("m_sr2", ⟨[.num 2]⟩),
   ("eps_sr1", ⟨[.num 3]⟩), ("eps_sr2", ⟨[.num 4]⟩),
   ("phi_sr1", ⟨[.num 5]⟩), ("phi_sr2", ⟨[.num 6]⟩)]

/-- A filesystem with no files, for evaluating the missing-model
behavior at a closed input. -/
def fsEmpty : FS := ⟨fun _ => false, fun _ => []⟩

/-- A filesystem on which every path exists and every JSON file parses
to the §8 item 6 hyperparameters. -/
def fsC6 : FS := ⟨fun _ => true, fun _ => paramsC6⟩

/-- A closed environment whose external collaborators return fixed
values, for evaluating the `run` theorems. -/
def envEmpty : Env :=
  { fs := fsEmpty, list_file := fun _ => [], store_file := fun _ => [],
    tensors := fun _ _ _ => 0,
    run_predictive := fun _ _ _ _ g => ([], g),
    run_discrete := fun _ _ _ _ _ _ g => ([], g) }

/-- Like `envEmpty` but with the filesystem `fsC6`, so that `run`
reaches the parameter-store loader. -/
def envC6 : Env :=
  { fs := fsC6, list_file := fun _ => [], store_file := fun _ => [],
    tensors := fun _ _ _ => 0,
    run_predictive := fun _ _ _ _ g => ([], g),
    run_discrete := fun _ _ _ _ _ _ g => ([], g) }

/-- A closed arguments mapping. -/
def argsW : Args :=
  { random_seed := 42, model_dir := "dir", model_name := "model",
    device := "cpu", genotype_predictive_samples := 100,
    genotype_predictive_iter := 10, genotype_discrete_log_freq := 5,
    genotype_discrete_samples := 1000, svtype := "DEL",
    output := "out.json" }

/-- A closed initial global state with a nonempty stale parameter
registry and arbitrary RNG states. -/
def gW : GlobalState := ⟨[("stale", 3)], 7, 8, 9⟩

/-- The model configuration `run` builds from `paramsC6`. -/
def cfgC6 : ModelCfg :=
  { svtype := .DEL, k := .num 2, mu_eps_pe := .num 1,
    mu_eps_sr1 := .num 1, mu_eps_sr2 := .num 1, var_phi_pe := .num 1,
    var_phi_sr1 := .num 1, var_phi_sr2 := .num 1, read_length := .num 150,
    device := "cpu", loss := .str "elbo" }

/-! ### Helper lemmas -/

theorem bind_ok_iff {α β : Type} {x : Except PyErr α}
    {f : α → Except PyErr β} {b : β} :
    (x >>= f) = Except.ok b ↔ ∃ a, x = Except.ok a ∧ f a = Except.ok b := by
  cases x <;> simp [Bind.bind, Except.bind]

theorem pure_eq_ok {α : Type} {a b : α} :
    (pure a : Except PyErr α) = Except.ok b ↔ a = b := by
  simp [pure, Except.pure]

theorem dictGet_of_contains {α : Type} {d : Dict α} {k : String}
    (h : dictContains d k = true) : ∃ v, dictGet d k = some v := by
  induction d with
  | nil => simp [dictContains] at h
  | cons p d ih =>
    by_cases hp : p.1 == k
    · exact ⟨p.2, by simp [dictGet, List.find?_cons, hp]⟩
    · simp [dictContains, List.any_cons, hp] at h
      obtain ⟨v, hv⟩ := ih (by simpa [dictContains] using h)
      refine ⟨v, ?_⟩
      simpa [dictGet, List.find?_cons, hp] using hv

theorem contains_of_dictGet {α : Type} {d : Dict α} {k : String} {v : α}
    (h : dictGet d k = some v) : dictContains d k = true := by
  induction d with
  | nil => simp [dictGet] at h
  | cons p d ih =>
    cases hp : p.1 == k with
    | true =>
      show ((p.1 == k) || d.any (fun q => q.1 == k)) = true
      rw [hp, Bool.true_or]
    | false =>
      have h' : dictGet d k = some v := by
        simpa [dictGet, List.find?_cons, hp] using h
      show ((p.1 == k) || d.any (fun q => q.1 == k)) = true
      rw [hp, Bool.false_or]
      exact ih h'

theorem dictGet_mem {α : Type} {d : Dict α} {k : String} {v : α}
    (h : dictGet d k = some v) : (k, v) ∈ d := by
  induction d with
  | nil => simp [dictGet] at h
  | cons p d ih =>
    cases hp : p.1 == k with
    | true =>
      obtain ⟨a, b⟩ := p
      have hk : a = k := by simpa using hp
      simp [dictGet, List.find?_cons, hp] at h
      subst hk
      subst h
      exact List.mem_cons_self _ _
    | false =>
      have h' : dictGet d k = some v := by
        simpa [dictGet, List.find?_cons, hp] using h
      exact List.mem_cons_of_mem _ (ih h')

theorem dictGetE_ok_of_contains {α : Type} {d : Dict α} {k : String}
    (h : dictContains d k = true) :
    ∃ v, dictGetE d k = .ok v ∧ dictGet d k = some v := by
  obtain ⟨v, hv⟩ := dictGet_of_contains h
  exact ⟨v, by simp [dictGetE, hv], hv⟩

theorem dictGetE_err_of_not_contains {α : Type} {d : Dict α} {k : String}
    (h : dictContains d k = false) :
    dictGetE d k = .error (.keyError k) := by
  match hg : dictGet d k with
  | some v => exact absurd (contains_of_dictGet hg) (by simp [h])
  | none => simp [dictGetE, hg]

theorem dictGetE_ok_inv {α : Type} {d : Dict α} {k : String} {v : α}
    (h : dictGetE d k = .ok v) : dictGet d k = some v := by
  match hg : dictGet d k with
  | some w => simpa [dictGetE, hg] using h
  | none => simp [dictGetE, hg] at h

theorem listGet_ok {α : Type} {xs : List α} {i : Nat} (h : i < xs.length) :
    listGet xs i = .ok xs[i] := by
  unfold listGet
  rw [List.getElem?_eq_getElem h]

theorem listGet_ok_inv {α : Type} {xs : List α} {i : Nat} {v : α}
    (h : listGet xs i = .ok v) : xs[i]? = some v := by
  unfold listGet at h
  cases hg : xs[i]? with
  | some w =>
    rw [hg] at h
    simpa using h
  | none =>
    rw [hg] at h
    simp at h

theorem lenOk_mean_length {stats : StatsDict} {n : Nat} {s : String}
    {e : SiteStat} (hlen : lenOk stats n = true)
    (hget : dictGet stats s = some e) : e.mean.length = n := by
  have hmem := dictGet_mem hget
  have := List.all_eq_true.mp hlen _ hmem
  simpa using this

theorem statsMeanAt_ok {stats : StatsDict} {n : Nat} {s : String} {i : Nat}
    (hc : dictContains stats s = true) (hlen : lenOk stats n = true)
    (hi : i < n) : ∃ v, statsMeanAt stats s i = .ok v ∧
      ∃ e, dictGet stats s = some e ∧ e.mean[i]? = some v := by
  obtain ⟨e, he, hge⟩ := dictGetE_ok_of_contains hc
  have hl : e.mean.length = n := lenOk_mean_length hlen hge
  have hi' : i < e.mean.length := hl ▸ hi
  refine ⟨e.mean[i], ?_, e, hge, ?_⟩
  · simp [statsMeanAt, bind_ok_iff]
    exact ⟨e, he, listGet_ok hi'⟩
  · exact List.getElem?_eq_getElem hi'

theorem siteNumsOk_num {stats : StatsDict} {s : String} {e : SiteStat}
    {i : Nat} {v : PyVal} (hnum : siteNumsOk stats s = true)
    (hget : dictGet stats s = some e) (hv : e.mean[i]? = some v) :
    v.isNum = true := by
  have hmem : v ∈ e.mean := List.getElem?_mem hv
  simp [siteNumsOk, hget] at hnum
  exact hnum _ hmem

theorem pyMul_ok {a b : PyVal} (ha : a.isNum = true) (hb : b.isNum = true) :
    ∃ q, pyMul a b = .ok (.num q) := by
  cases a <;> cases b <;> simp [PyVal.isNum] at ha hb ⊢
  exact ⟨_, rfl⟩

theorem scaledMeanAt_ok {stats : StatsDict} {params : ParamsDict}
    {n : Nat} {s muKey : String} {i : Nat}
    (hc : dictContains stats s = true) (hlen : lenOk stats n = true)
    (hi : i < n) (hnum : siteNumsOk stats s = true)
    (hcp : dictContains params muKey = true)
    (hnp : paramNumOk params muKey = true) :
    ∃ q, scaledMeanAt stats params s muKey i = .ok (.num q) := by
  obtain ⟨v, hv, e, hge, hie⟩ := statsMeanAt_ok hc hlen hi
  obtain ⟨mu, hmue, hmug⟩ := dictGetE_ok_of_contains hcp
  have hvnum : v.isNum = true := siteNumsOk_num hnum hge hie
  have hmunum : mu.isNum = true := by simpa [paramNumOk, hmug] using hnp
  obtain ⟨q, hq⟩ := pyMul_ok hvnum hmunum
  refine ⟨q, ?_⟩
  simp [scaledMeanAt, bind_ok_iff]
  exact ⟨v, hv, mu, hmue, hq⟩

theorem ok_bind {α β : Type} {a : α} {f : α → Except PyErr β} :
    (Except.ok a >>= f) = f a := rfl

theorem ite_ok_iff {c : Prop} [Decidable c] {x : Except PyErr PyVal}
    {v d : PyVal} :
    (if c then x else pure d) = Except.ok v ↔
      if c then x = Except.ok v else v = d := by
  by_cases hc : c <;> simp [hc, pure, Except.pure, eq_comm]

/-- Success of one loop iteration, characterized field by field: exactly
the lookups, index accesses and rescalings of the source, with the three
optional paired-end sites defaulting to `0` when absent. -/
theorem get_output_record_ok_iff {vids_list : List String}
    {stats : StatsDict} {params : ParamsDict} {i : Nat} {r : OutputRecord} :
    get_output_record vids_list stats params i = .ok r ↔
      listGet vids_list i = .ok r.vid ∧
      eps_pe_val stats params i = .ok r.eps_pe ∧
      phi_pe_val stats i = .ok r.phi_pe ∧
      p_m_pe_val stats i = .ok r.p_m_pe ∧
      statsMeanAt stats "z" i = .ok r.freq_z ∧
      statsMeanAt stats "m_sr1" i = .ok r.p_m_sr1 ∧
      statsMeanAt stats "m_sr2" i = .ok r.p_m_sr2 ∧
      scaledMeanAt stats params "eps_sr1" "mu_eps_sr1" i = .ok r.eps_sr1 ∧
      scaledMeanAt stats params "eps_sr2" "mu_eps_sr2" i = .ok r.eps_sr2 ∧
      statsMeanAt stats "phi_sr1" i = .ok r.phi_sr1 ∧
      statsMeanAt stats "phi_sr2" i = .ok r.phi_sr2 := by
  simp only [get_output_record, bind_ok_iff, pure_eq_ok]
  constructor
  · rintro ⟨vid, hvid, a, ha, b, hb, c, hc, z, hz, m1, hm1, m2, hm2,
      e1, he1, e2, he2, f1, hf1, f2, hf2, hr⟩
    subst hr
    exact ⟨hvid, ha, hb, hc, hz, hm1, hm2, he1, he2, hf1, hf2⟩
  · rintro ⟨hvid, ha, hb, hc, hz, hm1, hm2, he1, he2, hf1, hf2⟩
    exact ⟨r.vid, hvid, r.eps_pe, ha, r.phi_pe, hb, r.p_m_pe, hc,
      r.freq_z, hz, r.p_m_sr1, hm1, r.p_m_sr2, hm2, r.eps_sr1, he1,
      r.eps_sr2, he2, r.phi_sr1, hf1, r.phi_sr2, hf2, rfl⟩

theorem get_output_go_length {vids_list : List String} {stats : StatsDict}
    {params : ParamsDict} : ∀ {fuel i : Nat} {l : List OutputRecord},
    get_output_go vids_list stats params i fuel = .ok l →
    l.length = fuel := by
  intro fuel
  induction fuel with
  | zero =>
    intro i l h
    simp [get_output_go] at h
    simp [← h]
  | succ m ih =>
    intro i l h
    simp only [get_output_go, bind_ok_iff, pure_eq_ok] at h
    obtain ⟨r, _, rest, hrest, hl⟩ := h
    subst hl
    simp [ih hrest]

theorem get_output_go_get {vids_list : List String} {stats : StatsDict}
    {params : ParamsDict} : ∀ {fuel i : Nat} {l : List OutputRecord},
    get_output_go vids_list stats params i fuel = .ok l →
    ∀ j, (hj : j < l.length) →
      get_output_record vids_list stats params (i + j) = .ok l[j] := by
  intro fuel
  induction fuel with
  | zero =>
    intro i l h j hj
    simp [get_output_go] at h
    subst h
    simp at hj
  | succ m ih =>
    intro i l h j hj
    simp only [get_output_go, bind_ok_iff, pure_eq_ok] at h
    obtain ⟨r, hr, rest, hrest, hl⟩ := h
    subst hl
    cases j with
    | zero => simpa using hr
    | succ j =>
      have hj' : j < rest.length := by simpa using hj
      have hrec := ih hrest j hj'
      have hadd : i + (j + 1) = (i + 1) + j := by omega
      rw [hadd]
      simpa using hrec

theorem get_output_go_total {vids_list : List String} {stats : StatsDict}
    {params : ParamsDict} {n : Nat}
    (hrec : ∀ j, j < n →
      ∃ r, get_output_record vids_list stats params j = .ok r) :
    ∀ fuel i, i + fuel ≤ n →
      ∃ l, get_output_go vids_list stats params i fuel = .ok l := by
  intro fuel
  induction fuel with
  | zero => exact fun i _ => ⟨[], rfl⟩
  | succ m ih =>
    intro i hle
    obtain ⟨r, hr⟩ := hrec i (by omega)
    obtain ⟨l, hl⟩ := ih (i + 1) (by omega)
    refine ⟨r :: l, ?_⟩
    simp only [get_output_go]
    rw [hr, ok_bind, hl, ok_bind]
    rfl

theorem eps_pe_val_absent {stats : StatsDict} {params : ParamsDict} {i : Nat}
    (h : dictContains stats "eps_pe" = false) :
    eps_pe_val stats params i = .ok (.num 0) := by
  simp [eps_pe_val, h, pure, Except.pure]

theorem eps_pe_val_present {stats : StatsDict} {params : ParamsDict} {i : Nat}
    (h : dictContains stats "eps_pe" = true) :
    eps_pe_val stats params i =
      scaledMeanAt stats params "eps_pe" "mu_eps_pe" i := by
  simp [eps_pe_val, h]

theorem phi_pe_val_absent {stats : StatsDict} {i : Nat}
    (h : dictContains stats "phi_pe" = false) :
    phi_pe_val stats i = .ok (.num 0) := by
  simp [phi_pe_val, h, pure, Except.pure]

theorem p_m_pe_val_absent {stats : StatsDict} {i : Nat}
    (h : dictContains stats "m_pe" = false) :
    p_m_pe_val stats i = .ok (.num 0) := by
  simp [p_m_pe_val, h, pure, Except.pure]

theorem statsMeanAt_contains {stats : StatsDict} {s : String} {i : Nat}
    {v : PyVal} (h : statsMeanAt stats s i = .ok v) :
    dictContains stats s = true := by
  simp only [statsMeanAt, bind_ok_iff] at h
  obtain ⟨e, he, _⟩ := h
  exact contains_of_dictGet (dictGetE_ok_inv he)

theorem scaledMeanAt_contains {stats : StatsDict} {params : ParamsDict}
    {s muKey : String} {i : Nat} {v : PyVal}
    (h : scaledMeanAt stats params s muKey i = .ok v) :
    dictContains stats s = true ∧ dictContains params muKey = true := by
  simp only [scaledMeanAt, bind_ok_iff] at h
  obtain ⟨m, hm, mu, hmu, _⟩ := h
  exact ⟨statsMeanAt_contains hm, contains_of_dictGet (dictGetE_ok_inv hmu)⟩

/-- Under the full well-formedness assumptions, every loop iteration
succeeds. -/
theorem get_output_record_total {vids_list : List String}
    {stats : StatsDict} {params : ParamsDict} {i : Nat}
    (hwf : outputWF vids_list stats params) (hi : i < vids_list.length) :
    ∃ r, get_output_record vids_list stats params i = .ok r := by
  obtain ⟨⟨hlen, hn0, hn1, hn2, hp0, hp1, hp2⟩, hcz, hcm1, hcm2, hce1, hce2,
    hcf1, hcf2, hq1, hq2, hor⟩ := hwf
  have heps : ∃ v, eps_pe_val stats params i = .ok v := by
    cases h1 : dictContains stats "eps_pe" with
    | false => exact ⟨.num 0, eps_pe_val_absent h1⟩
    | true =>
      have hmu : dictContains params "mu_eps_pe" = true := by
        cases hor with
        | inl h => rw [h1] at h; cases h
        | inr h => exact h
      obtain ⟨q, hq⟩ := scaledMeanAt_ok h1 hlen hi hn0 hmu hp0
      exact ⟨.num q, by rw [eps_pe_val_present h1, hq]⟩
  have hphi : ∃ v, phi_pe_val stats i = .ok v := by
    cases h1 : dictContains stats "phi_pe" with
    | false => exact ⟨.num 0, phi_pe_val_absent h1⟩
    | true =>
      obtain ⟨v, hv, _⟩ := statsMeanAt_ok h1 hlen hi
      exact ⟨v, by simp [phi_pe_val, h1, hv]⟩
  have hmpe : ∃ v, p_m_pe_val stats i = .ok v := by
    cases h1 : dictContains stats "m_pe" with
    | false => exact ⟨.num 0, p_m_pe_val_absent h1⟩
    | true =>
      obtain ⟨v, hv, _⟩ := statsMeanAt_ok h1 hlen hi
      exact ⟨v, by simp [p_m_pe_val, h1, hv]⟩
  obtain ⟨e, he⟩ := heps
  obtain ⟨f, hf⟩ := hphi
  obtain ⟨m, hm⟩ := hmpe
  obtain ⟨z, hz, _⟩ := statsMeanAt_ok hcz hlen hi
  obtain ⟨m1, hm1, _⟩ := statsMeanAt_ok hcm1 hlen hi
  obtain ⟨m2, hm2, _⟩ := statsMeanAt_ok hcm2 hlen hi
  obtain ⟨q1, hq1e⟩ := scaledMeanAt_ok hce1 hlen hi hn1 hq1 hp1
  obtain ⟨q2, hq2e⟩ := scaledMeanAt_ok hce2 hlen hi hn2 hq2 hp2
  obtain ⟨f1, hf1e, _⟩ := statsMeanAt_ok hcf1 hlen hi
  obtain ⟨f2, hf2e, _⟩ := statsMeanAt_ok hcf2 hlen hi
  refine ⟨⟨vids_list[i], z, m, m1, m2, e, .num q1, .num q2, f, f1, f2⟩, ?_⟩
  exact get_output_record_ok_iff.mpr ⟨listGet_ok hi, he, hf, hm, hz, hm1,
    hm2, hq1e, hq2e, hf1e, hf2e⟩

/-- A successful `get_output` has one record per variant, and each
record is the result of its own successful loop iteration. -/
theorem get_output_ok_record {vids_list : List String} {stats : StatsDict}
    {params : ParamsDict} {out : List OutputRecord}
    (h : get_output vids_list stats params = .ok out) :
    out.length = vids_list.length ∧
    ∀ i, (hi : i < out.length) →
      get_output_record vids_list stats params i = .ok out[i] := by
  refine ⟨get_output_go_length h, fun i hi => ?_⟩
  have hrec := get_output_go_get h i hi
  simpa using hrec

theorem isOkOrKey_bind {α β : Type} {x : Except PyErr α}
    {f : α → Except PyErr β} (hx : isOkOrKey x)
    (hf : ∀ a, x = .ok a → isOkOrKey (f a)) : isOkOrKey (x >>= f) := by
  cases hx with
  | inl h =>
    obtain ⟨a, ha⟩ := h
    rw [ha, ok_bind]
    exact hf a ha
  | inr h =>
    obtain ⟨k, hk⟩ := h
    exact Or.inr ⟨k, by rw [hk]; rfl⟩

theorem isOkOrKey_dictGetE {α : Type} (d : Dict α) (k : String) :
    isOkOrKey (dictGetE d k) := by
  cases hg : dictGet d k with
  | some v => exact Or.inl ⟨v, by simp [dictGetE, hg]⟩
  | none => exact Or.inr ⟨k, by simp [dictGetE, hg]⟩

theorem isOkOrKey_statsMeanAt {stats : StatsDict} {n : Nat} {s : String}
    {i : Nat} (hlen : lenOk stats n = true) (hi : i < n) :
    isOkOrKey (statsMeanAt stats s i) := by
  unfold statsMeanAt
  apply isOkOrKey_bind (isOkOrKey_dictGetE _ _)
  intro e he
  have hl : e.mean.length = n := lenOk_mean_length hlen (dictGetE_ok_inv he)
  have hi' : i < e.mean.length := hl ▸ hi
  exact Or.inl ⟨_, listGet_ok hi'⟩

theorem isOkOrKey_scaledMeanAt {stats : StatsDict} {params : ParamsDict}
    {n : Nat} {s muKey : String} {i : Nat} (hlen : lenOk stats n = true)
    (hi : i < n) (hnum : siteNumsOk stats s = true)
    (hpnum : paramNumOk params muKey = true) :
    isOkOrKey (scaledMeanAt stats params s muKey i) := by
  unfold scaledMeanAt
  apply isOkOrKey_bind (isOkOrKey_statsMeanAt hlen hi)
  intro m hm
  apply isOkOrKey_bind (isOkOrKey_dictGetE _ _)
  intro mu hmu
  have hmnum : m.isNum = true := by
    simp only [statsMeanAt, bind_ok_iff] at hm
    obtain ⟨e, he, hle⟩ := hm
    exact siteNumsOk_num hnum (dictGetE_ok_inv he) (listGet_ok_inv hle)
  have hmunum : mu.isNum = true := by
    have hg := dictGetE_ok_inv hmu
    simpa [paramNumOk, hg] using hpnum
  obtain ⟨q, hq⟩ := pyMul_ok hmnum hmunum
  exact Or.inl ⟨_, hq⟩

theorem isOkOrKey_record {vids_list : List String} {stats : StatsDict}
    {params : ParamsDict} {i : Nat}
    (hwf : valsWF vids_list stats params) (hi : i < vids_list.length) :
    isOkOrKey (get_output_record vids_list stats params i) := by
  obtain ⟨hlen, hn0, hn1, hn2, hp0, hp1, hp2⟩ := hwf
  unfold get_output_record
  apply isOkOrKey_bind (Or.inl ⟨_, listGet_ok hi⟩)
  intro vid _
  apply isOkOrKey_bind (x := eps_pe_val stats params i)
  · unfold eps_pe_val
    cases h1 : dictContains stats "eps_pe" with
    | false => simp only [Bool.false_eq_true, if_false]; exact Or.inl ⟨_, rfl⟩
    | true =>
      simp only [if_true]
      exact isOkOrKey_scaledMeanAt hlen hi hn0 hp0
  intro a _
  apply isOkOrKey_bind (x := phi_pe_val stats i)
  · unfold phi_pe_val
    cases h1 : dictContains stats "phi_pe" with
    | false => simp only [Bool.false_eq_true, if_false]; exact Or.inl ⟨_, rfl⟩
    | true =>
      simp only [if_true]
      exact isOkOrKey_statsMeanAt hlen hi
  intro b _
  apply isOkOrKey_bind (x := p_m_pe_val stats i)
  · unfold p_m_pe_val
    cases h1 : dictContains stats "m_pe" with
    | false => simp only [Bool.false_eq_true, if_false]; exact Or.inl ⟨_, rfl⟩
    | true =>
      simp only [if_true]
      exact isOkOrKey_statsMeanAt hlen hi
  intro c _
  apply isOkOrKey_bind (isOkOrKey_statsMeanAt hlen hi)
  intro z _
  apply isOkOrKey_bind (isOkOrKey_statsMeanAt hlen hi)
  intro m1 _
  apply isOkOrKey_bind (isOkOrKey_statsMeanAt hlen hi)
  intro m2 _
  apply isOkOrKey_bind (isOkOrKey_scaledMeanAt hlen hi hn1 hp1)
  intro e1 _
  apply isOkOrKey_bind (isOkOrKey_scaledMeanAt hlen hi hn2 hp2)
  intro e2 _
  apply isOkOrKey_bind (isOkOrKey_statsMeanAt hlen hi)
  intro f1 _
  apply isOkOrKey_bind (isOkOrKey_statsMeanAt hlen hi)
  intro f2 _
  exact Or.inl ⟨_, rfl⟩

theorem isOkOrKey_go {vids_list : List String} {stats : StatsDict}
    {params : ParamsDict} (hwf : valsWF vids_list stats params) :
    ∀ fuel i, i + fuel ≤ vids_list.length →
      isOkOrKey (get_output_go vids_list stats params i fuel) := by
  intro fuel
  induction fuel with
  | zero => exact fun i _ => Or.inl ⟨[], rfl⟩
  | succ m ih =>
    intro i hle
    simp only [get_output_go]
    apply isOkOrKey_bind (isOkOrKey_record hwf (by omega))
    intro r _
    apply isOkOrKey_bind (ih (i + 1) (by omega))
    intro l _
    exact Or.inl ⟨_, rfl⟩

/-! ### Claim theorems -/

/-- C1: if `'eps_pe'` is absent from `stats`, every record returned by
`get_output` has `eps_pe = 0`; if present, the `i`-th record's `eps_pe`
equals `stats['eps_pe']['mean'][i] * params['mu_eps_pe']`.  Likewise,
absence of `'phi_pe'` or `'m_pe'` yields `phi_pe = 0` or `p_m_pe = 0`
respectively, without raising an error. -/
theorem get_output_optional_pe_defaults (vids_list : List String)
    (stats : StatsDict) (params : ParamsDict) (out : List OutputRecord)
    (h : get_output vids_list stats params = .ok out) :
    (dictContains stats "eps_pe" = false → ∀ r ∈ out, r.eps_pe = .num 0) ∧
    (dictContains stats "eps_pe" = true → ∀ i, (hi : i < out.length) →
      scaledMeanAt stats params "eps_pe" "mu_eps_pe" i = .ok out[i].eps_pe) ∧
    (dictContains stats "phi_pe" = false → ∀ r ∈ out, r.phi_pe = .num 0) ∧
    (dictContains stats "m_pe" = false → ∀ r ∈ out, r.p_m_pe = .num 0) := by
  obtain ⟨hlen, hrec⟩ := get_output_ok_record h
  refine ⟨?_, ?_, ?_, ?_⟩
  · intro hc r hr
    obtain ⟨i, hi, hig⟩ := List.mem_iff_getElem.mp hr
    obtain ⟨_, he, _⟩ := get_output_record_ok_iff.mp (hrec i hi)
    rw [eps_pe_val_absent hc] at he
    have h0 : PyVal.num 0 = r.eps_pe := by rw [← hig]; simpa using he
    exact h0.symm
  · intro hc i hi
    obtain ⟨_, he, _⟩ := get_output_record_ok_iff.mp (hrec i hi)
    rw [eps_pe_val_present hc] at he
    exact he
  · intro hc r hr
    obtain ⟨i, hi, hig⟩ := List.mem_iff_getElem.mp hr
    obtain ⟨_, _, hf, _⟩ := get_output_record_ok_iff.mp (hrec i hi)
    rw [phi_pe_val_absent hc] at hf
    have h0 : PyVal.num 0 = r.phi_pe := by rw [← hig]; simpa using hf
    exact h0.symm
  · intro hc r hr
    obtain ⟨i, hi, hig⟩ := List.mem_iff_getElem.mp hr
    obtain ⟨_, _, _, hm, _⟩ := get_output_record_ok_iff.mp (hrec i hi)
    rw [p_m_pe_val_absent hc] at hm
    have h0 : PyVal.num 0 = r.p_m_pe := by rw [← hig]; simpa using hm
    exact h0.symm

/-- Witness for C1 at the §8 scenario inputs: the statistics lack all
three optional paired-end sites, and the two returned records have the
zero defaults. -/
theorem get_output_optional_pe_defaults_witness :
    get_output ["sv1", "sv2"] statsC6 paramsC6 = .ok [recC6a, recC6b] ∧
    (dictContains statsC6 "eps_pe" = false →
      ∀ r ∈ [recC6a, recC6b], r.eps_pe = .num 0) := by
  have hout : get_output ["sv1", "sv2"] statsC6 paramsC6 =
      .ok [recC6a, recC6b] := by
    simp [get_output, get_output_go, get_output_record, eps_pe_val,
      phi_pe_val, p_m_pe_val, statsMeanAt, scaledMeanAt, dictGetE, dictGet,
      dictContains, listGet, pyMul, statsC6, paramsC6, recC6a, recC6b,
      Bind.bind, Except.bind, pure, Except.pure, List.find?, List.any]
  exact ⟨hout,
    (get_output_optional_pe_defaults ["sv1", "sv2"] statsC6 paramsC6
      [recC6a, recC6b] hout).1⟩

/-- C2: whenever the mappings are well formed (every statistic array has
one row per variant, the mandatory sites and priors are present), the
list returned by `get_output` has exactly one record per entry of
`vids_list`. -/
theorem get_output_length_matches (vids_list : List String)
    (stats : StatsDict) (params : ParamsDict)
    (hwf : outputWF vids_list stats params) :
    ∃ out, get_output vids_list stats params = .ok out ∧
      out.length = vids_list.length := by
  obtain ⟨l, hl⟩ := get_output_go_total
    (fun j hj => get_output_record_total hwf hj) vids_list.length 0
    (by omega)
  exact ⟨l, hl, get_output_go_length hl⟩

/-- Witness for C2 at the §8 scenario inputs. -/
theorem get_output_length_matches_witness :
    outputWF ["sv1", "sv2"] statsC6 paramsC6 ∧
    ∃ out, get_output ["sv1", "sv2"] statsC6 paramsC6 = .ok out ∧
      out.length = (["sv1", "sv2"] : List String).length :=
  ⟨by decide,
   get_output_length_matches ["sv1", "sv2"] statsC6 paramsC6 (by decide)⟩

/-- C3: the `i`-th record returned by `get_output` has `vid` equal to
`vids_list[i]`: output order follows the order of `vids_list`. -/
theorem get_output_vid_order (vids_list : List String) (stats : StatsDict)
    (params : ParamsDict) (out : List OutputRecord)
    (h : get_output vids_list stats params = .ok out) (i : Nat)
    (hi : i < out.length) (hv : i < vids_list.length) :
    out[i].vid = vids_list[i] := by
  obtain ⟨hlen, hrec⟩ := get_output_ok_record h
  obtain ⟨hvid, _⟩ := get_output_record_ok_iff.mp (hrec i hi)
  rw [listGet_ok hv] at hvid
  simpa using hvid.symm

/-- Witness for C3 at the §8 scenario inputs, index `1`. -/
theorem get_output_vid_order_witness :
    get_output ["sv1", "sv2"] statsC6 paramsC6 = .ok [recC6a, recC6b] ∧
    1 < ([recC6a, recC6b] : List OutputRecord).length ∧
    1 < (["sv1", "sv2"] : List String).length ∧
    ([recC6a, recC6b] : List OutputRecord)[1].vid =
      (["sv1", "sv2"] : List String)[1] := by
  have hout : get_output ["sv1", "sv2"] statsC6 paramsC6 =
      .ok [recC6a, recC6b] := by
    simp [get_output, get_output_go, get_output_record, eps_pe_val,
      phi_pe_val, p_m_pe_val, statsMeanAt, scaledMeanAt, dictGetE, dictGet,
      dictContains, listGet, pyMul, statsC6, paramsC6, recC6a, recC6b,
      Bind.bind, Except.bind, pure, Except.pure, List.find?, List.any]
  exact ⟨hout, by decide, by decide,
    get_output_vid_order ["sv1", "sv2"] statsC6 paramsC6 [recC6a, recC6b]
      hout 1 (by decide) (by decide)⟩

/-- C6: the end-to-end scenario of §8 item 6 — two variants, unit
priors, statistics lacking `eps_pe`/`phi_pe`/`m_pe` — yields exactly the
two records with zero paired-end fields, `freq_z` copied from the `z`
rows, membership probabilities and `phi` values copied unscaled, and
`eps_sr1`/`eps_sr2` scaled by the (unit) prior means. -/
theorem get_output_scenario_c6 :
    get_output ["sv1", "sv2"] statsC6 paramsC6 = .ok [recC6a, recC6b] := by
  simp [get_output, get_output_go, get_output_record, eps_pe_val,
      phi_pe_val, p_m_pe_val, statsMeanAt, scaledMeanAt, dictGetE, dictGet,
      dictContains, listGet, pyMul, statsC6, paramsC6, recC6a, recC6b,
      Bind.bind, Except.bind, pure, Except.pure, List.find?, List.any]

/-- C9: only the paired-end sites are optional: if any mandatory site
(`z`, `m_sr1`, `m_sr2`, `eps_sr1`, `eps_sr2`, `phi_sr1`, `phi_sr2`) is
absent from `stats`, or `params` lacks `mu_eps_sr1`/`mu_eps_sr2`, then
`get_output` on a non-empty `vids_list` raises a key-lookup error
rather than substituting a default. -/
theorem get_output_mandatory_key_error (vids_list : List String)
    (stats : StatsDict) (params : ParamsDict)
    (hne : 0 < vids_list.length) (hwf : valsWF vids_list stats params)
    (hmiss :
      dictContains stats "z" = false ∨
      dictContains stats "m_sr1" = false ∨
      dictContains stats "m_sr2" = false ∨
      dictContains stats "eps_sr1" = false ∨
      dictContains stats "eps_sr2" = false ∨
      dictContains stats "phi_sr1" = false ∨
      dictContains stats "phi_sr2" = false ∨
      dictContains params "mu_eps_sr1" = false ∨
      dictContains params "mu_eps_sr2" = false) :
    ∃ k, get_output vids_list stats params = .error (.keyError k) := by
  have hokk := isOkOrKey_go hwf vids_list.length 0 (by omega)
  cases hokk with
  | inr h => exact h
  | inl h =>
    obtain ⟨out, hout⟩ := h
    exfalso
    have hlen : out.length = vids_list.length := get_output_go_length hout
    have h0 : 0 < out.length := by omega
    have hrec := get_output_go_get hout 0 h0
    obtain ⟨_, _, _, _, hz, hm1, hm2, he1, he2, hf1, hf2⟩ :=
      get_output_record_ok_iff.mp hrec
    rcases hmiss with h | h | h | h | h | h | h | h | h
    · rw [statsMeanAt_contains hz] at h; exact Bool.noConfusion h
    · rw [statsMeanAt_contains hm1] at h; exact Bool.noConfusion h
    · rw [statsMeanAt_contains hm2] at h; exact Bool.noConfusion h
    · rw [(scaledMeanAt_contains he1).1] at h; exact Bool.noConfusion h
    · rw [(scaledMeanAt_contains he2).1] at h; exact Bool.noConfusion h
    · rw [statsMeanAt_contains hf1] at h; exact Bool.noConfusion h
    · rw [statsMeanAt_contains hf2] at h; exact Bool.noConfusion h
    · rw [(scaledMeanAt_contains he1).2] at h; exact Bool.noConfusion h
    · rw [(scaledMeanAt_contains he2).2] at h; exact Bool.noConfusion h

/-- Witness for C9: with `z` missing, the call fails with a key error. -/
theorem get_output_mandatory_key_error_witness :
    0 < (["sv1"] : List String).length ∧
    valsWF ["sv1"] statsNoZ paramsC6 ∧
    dictContains statsNoZ "z" = false ∧
    ∃ k, get_output ["sv1"] statsNoZ paramsC6 = .error (.keyError k) :=
  ⟨by decide, by decide, by decide,
   get_output_mandatory_key_error ["sv1"] statsNoZ paramsC6 (by decide)
     (by decide) (Or.inl (by decide))⟩

/-- C10: on an empty `vids_list`, `get_output` returns the empty list
for every statistics and hyperparameter mapping, without inspecting
either. -/
theorem get_output_nil (stats : StatsDict) (params : ParamsDict) :
    get_output [] stats params = .ok [] := rfl

/-- C4: `load_model` on a base path whose `.vars.json` file does not
exist returns `None` and emits a warning-level log entry (and, being a
total function here, raises nothing); when the file exists it returns
the parsed JSON mapping. -/
theorem load_model_spec (fs : FS) (base_path : String) :
    (fs.exists_file (base_path ++ ".vars.json") = false →
      load_model fs base_path =
        (none,
         [LogEntry.warning
            ("Could not locate model file " ++ (base_path ++ ".vars.json"))])) ∧
    (fs.exists_file (base_path ++ ".vars.json") = true →
      load_model fs base_path =
        (some (fs.json (base_path ++ ".vars.json")), [])) := by
  constructor <;> intro h <;> simp [load_model, h]

/-- Witness for C4 on an empty filesystem. -/
theorem load_model_spec_witness :
    fsEmpty.exists_file ("m" ++ ".vars.json") = false ∧
    load_model fsEmpty "m" =
      (none,
       [LogEntry.warning
          ("Could not locate model file " ++ ("m" ++ ".vars.json"))]) :=
  ⟨rfl, (load_model_spec fsEmpty "m").1 rfl⟩

/-- C5: when the hyperparameter file for the resolved base path is
missing, `run` raises a `RuntimeError` and aborts before any inference
or output: the trace contains no write event and no inference event, so
no partial output exists on error. -/
theorem run_missing_model_aborts (env : Env) (args : Args)
    (g : GlobalState) (st : SVType)
    (hsv : svtypeOf args.svtype = .ok st)
    (hmiss : env.fs.exists_file
      (os_path_join args.model_dir args.model_name ++ ".vars.json")
      = false) :
    (run env args g).result =
      .error (.runtimeError
        ("Model at not found: " ++
          os_path_join args.model_dir args.model_name)) ∧
    (∀ p, Event.wroteOutput p ∉ (run env args g).trace) ∧
    Event.ranPredictive ∉ (run env args g).trace ∧
    Event.ranDiscrete ∉ (run env args g).trace := by
  refine ⟨?_, fun p => ?_, ?_, ?_⟩ <;>
    simp [run, hsv, load_model, hmiss]

/-- Witness for C5 on an empty filesystem with a valid SV type tag. -/
theorem run_missing_model_aborts_witness :
    svtypeOf argsW.svtype = .ok SVType.DEL ∧
    envEmpty.fs.exists_file
      (os_path_join argsW.model_dir argsW.model_name ++ ".vars.json")
      = false ∧
    ((run envEmpty argsW gW).result =
      .error (.runtimeError
        ("Model at not found: " ++
          os_path_join argsW.model_dir argsW.model_name)) ∧
     (∀ p, Event.wroteOutput p ∉ (run envEmpty argsW gW).trace) ∧
     Event.ranPredictive ∉ (run envEmpty argsW gW).trace ∧
     Event.ranDiscrete ∉ (run envEmpty argsW gW).trace) :=
  ⟨rfl, rfl, run_missing_model_aborts envEmpty argsW gW SVType.DEL rfl rfl⟩

/-- C7: `load_param_store` first clears the process-wide registry and
then loads `<base_path>.param_store.pyro` into it for the requested
device, so the resulting registry is exactly the file's contents
whatever was there before; and together with the clear at the start of
`run`, an invocation of `run` that reaches the loader clears the
registry exactly twice. -/
theorem load_param_store_fresh (env : Env) (args : Args)
    (g0 : GlobalState) (st : SVType) (cfg : ModelCfg)
    (hsv : svtypeOf args.svtype = .ok st)
    (hex : env.fs.exists_file
      (os_path_join args.model_dir args.model_name ++ ".vars.json")
      = true)
    (hcfg : build_model_cfg st
      (env.fs.json (os_path_join args.model_dir args.model_name
        ++ ".vars.json")) args.device = .ok cfg) :
    (∀ sf bp dev g, load_param_store sf bp dev g =
      ({ g with pstore := sf (bp ++ ".param_store.pyro") },
       [Event.clearParamStore,
        Event.loadedParamStore (bp ++ ".param_store.pyro") dev])) ∧
    (run env args g0).trace.count Event.clearParamStore = 2 := by
  constructor
  · intro sf bp dev g
    cases g
    simp [load_param_store, storeLoad]
  · simp only [run, hsv, load_model, hex, if_true]
    rw [hcfg]
    simp only [load_param_store, storeLoad]
    split <;>
      simp [List.count_cons, List.count_append, List.count_nil]

/-- Witness for C7: a run against `fsC6` reaches the loader and its
trace clears the registry exactly twice. -/
theorem load_param_store_fresh_witness :
    svtypeOf argsW.svtype = .ok SVType.DEL ∧
    envC6.fs.exists_file
      (os_path_join argsW.model_dir argsW.model_name ++ ".vars.json")
      = true ∧
    build_model_cfg SVType.DEL
      (envC6.fs.json (os_path_join argsW.model_dir argsW.model_name
        ++ ".vars.json")) argsW.device = .ok cfgC6 ∧
    ((∀ sf bp dev g, load_param_store sf bp dev g =
       ({ g with pstore := sf (bp ++ ".param_store.pyro") },
        [Event.clearParamStore,
         Event.loadedParamStore (bp ++ ".param_store.pyro") dev])) ∧
     (run envC6 argsW gW).trace.count Event.clearParamStore = 2) :=
  ⟨rfl, rfl, rfl,
   load_param_store_fresh envC6 argsW gW SVType.DEL cfgC6 rfl rfl rfl⟩

/-- C8: `run` is deterministic in the process-wide mutable state it
inherits: because it reseeds all three random number generators from
`args['random_seed']` and clears and reloads the parameter registry
before any inference, two invocations with the same arguments, files and
(deterministic) external runtime produce identical results from any two
initial global states. -/
theorem run_deterministic (env : Env) (args : Args)
    (g1 g2 : GlobalState) :
    (run env args g1).result = (run env args g2).result := by
  cases g1
  cases g2
  rfl

end SVGenotyper
